import Mathlib

/-!
Shallow embedding of the fast-async-mutex crate (src/mutex.rs and
src/mutex_unordered.rs) and proofs about its admission protocol.

Modelling conventions:
* usize arithmetic is Nat with explicit reduction modulo U = 2 ^ 64
  (fetch_add wraps).
* The AtomicPtr waker slot is an Option Nat holding the id of the boxed
  waker currently stored; the list of box ids allocated by Box::into_raw
  and not yet reclaimed by Box::from_raw is tracked in the field
  allocated, so that leaks are observable.
* Polling, dropping a future, dropping a guard and locking are the state
  transitions; guards carry the ticket they were created for as ghost
  data (the Rust guard holds only a reference to the mutex).
* Polling a future that has already returned Ready is forbidden by the
  Rust Future contract, so the transition system treats such a poll as a
  no-op; none of the results depend on re-polling completed futures.
-/

/-- Width modulus of usize on a 64-bit target: all counter arithmetic in
the crate is wrapping arithmetic modulo this constant. -/
def U : Nat := 2 ^ 64

/-- Embedding of Rust's checked_sub on usize: subtraction that reports
underflow as none. -/
def checkedSub (a b : Nat) : Option Nat := if b ≤ a then some (a - b) else none

/-- Result of one poll: either the future completed with a guard or it
stays suspended. -/
inductive PollResult where
  | ready
  | pending
deriving DecidableEq, Repr

/-- State of the ticket mutex (struct Mutex in src/mutex.rs): state is the
next ticket to issue, current the ticket being served, waker the pointer
slot, allocated the ghost list of live waker boxes. The payload cell is
not modelled; no operation of the mutex touches it. -/
structure Mutex where
  state : Nat
  current : Nat
  waker : Option Nat
  allocated : List Nat
deriving DecidableEq, Repr

/-- Embedding of Mutex::new. -/
def Mutex.new : Mutex := ⟨0, 0, none, []⟩

/-- State of a MutexGuardFuture: the ticket it was issued and the
is_realized flag. -/
structure MutexGuardFuture where
  id : Nat
  is_realized : Bool
deriving DecidableEq, Repr

/-- State of a MutexOwnedGuardFuture; identical fields, the Arc handle is
not modelled. -/
structure MutexOwnedGuardFuture where
  id : Nat
  is_realized : Bool
deriving DecidableEq, Repr

/-- Embedding of Mutex::lock: fetch_add(1) on state returns the prior
value as the ticket of the new future. -/
def Mutex.lock (m : Mutex) : MutexGuardFuture × Mutex :=
  (⟨m.state, false⟩, { m with state := (m.state + 1) % U })

/-- Embedding of Mutex::lock_owned: same admission effect as lock. -/
def Mutex.lock_owned (m : Mutex) : MutexOwnedGuardFuture × Mutex :=
  (⟨m.state, false⟩, { m with state := (m.state + 1) % U })

/-- Embedding of Mutex::store_waker: Box::into_raw of a fresh clone (the
new id w joins allocated) followed by a plain store into the slot; the
previous slot contents are overwritten, not reclaimed. -/
def Mutex.store_waker (m : Mutex) (w : Nat) : Mutex :=
  { m with waker := some w, allocated := m.allocated ++ [w] }

/-- Embedding of Mutex::unlock: fetch_add(1) on current, then swap the
waker slot with null; a non-null old pointer is woken (returned) and its
box reclaimed by Box::from_raw. -/
def Mutex.unlock (m : Mutex) : Mutex × Option Nat :=
  let m' : Mutex := { m with current := (m.current + 1) % U }
  match m'.waker with
  | none => (m', none)
  | some w => ({ m' with waker := none, allocated := m'.allocated.erase w }, some w)

/-- Embedding of Drop for MutexGuard / MutexOwnedGuard: the guard's drop
calls unlock. -/
def Mutex.guardDrop (m : Mutex) : Mutex × Option Nat := m.unlock

/-- Embedding of Future::poll for MutexGuardFuture: compare current with
the own ticket; on equality become realized and return Ready, otherwise
store the context waker exactly when current equals id.checked_sub(1),
and return Pending. The second component of the result is the mutex
after the poll. -/
def MutexGuardFuture.poll (f : MutexGuardFuture) (m : Mutex) (w : Nat) :
    MutexGuardFuture × Mutex × PollResult :=
  let current := m.current
  if current = f.id then
    (⟨f.id, true⟩, m, PollResult.ready)
  else
    if some current = checkedSub f.id 1 then
      (f, m.store_waker w, PollResult.pending)
    else
      (f, m, PollResult.pending)

/-- Embedding of Future::poll for MutexOwnedGuardFuture; the body is
identical to the borrowing variant. -/
def MutexOwnedGuardFuture.poll (f : MutexOwnedGuardFuture) (m : Mutex) (w : Nat) :
    MutexOwnedGuardFuture × Mutex × PollResult :=
  let current := m.current
  if current = f.id then
    (⟨f.id, true⟩, m, PollResult.ready)
  else
    if some current = checkedSub f.id 1 then
      (f, m.store_waker w, PollResult.pending)
    else
      (f, m, PollResult.pending)

/-- Embedding of Drop for MutexGuardFuture: unlock unless realized. The
second component is the wake delivered by the drop, if any. -/
def MutexGuardFuture.dropFuture (f : MutexGuardFuture) (m : Mutex) :
    Mutex × Option Nat :=
  if f.is_realized then (m, none) else m.unlock

/-- Embedding of Drop for MutexOwnedGuardFuture: unlock unless realized. -/
def MutexOwnedGuardFuture.dropFuture (f : MutexOwnedGuardFuture) (m : Mutex) :
    Mutex × Option Nat :=
  if f.is_realized then (m, none) else m.unlock

/-- State of the unordered mutex (struct UnorderedMutex in
src/mutex_unordered.rs): the is_acquired flag, the waker slot and the
ghost list of live waker boxes. -/
structure UnorderedMutex where
  is_acquired : Bool
  waker : Option Nat
  allocated : List Nat
deriving DecidableEq, Repr

/-- Embedding of UnorderedMutex::new. -/
def UnorderedMutex.new : UnorderedMutex := ⟨false, none, []⟩

/-- State of an UnorderedMutexGuardFuture: only the is_realized flag. -/
structure UnorderedMutexGuardFuture where
  is_realized : Bool
deriving DecidableEq, Repr

/-- State of an UnorderedMutexOwnedGuardFuture. -/
structure UnorderedMutexOwnedGuardFuture where
  is_realized : Bool
deriving DecidableEq, Repr

/-- Embedding of UnorderedMutex::lock: a const fn that builds the future
and does not touch the mutex. -/
def UnorderedMutex.lock (_m : UnorderedMutex) : UnorderedMutexGuardFuture := ⟨false⟩

/-- Embedding of UnorderedMutex::lock_owned. -/
def UnorderedMutex.lock_owned (_m : UnorderedMutex) : UnorderedMutexOwnedGuardFuture :=
  ⟨false⟩

/-- Embedding of UnorderedMutex::store_waker: identical to the ticket
variant's store_waker, including the overwrite of a previous pointer. -/
def UnorderedMutex.store_waker (m : UnorderedMutex) (w : Nat) : UnorderedMutex :=
  { m with waker := some w, allocated := m.allocated ++ [w] }

/-- Embedding of UnorderedMutex::unlock: store false into is_acquired,
then swap the waker slot with null and wake a non-null old pointer. -/
def UnorderedMutex.unlock (m : UnorderedMutex) : UnorderedMutex × Option Nat :=
  let m' : UnorderedMutex := { m with is_acquired := false }
  match m'.waker with
  | none => (m', none)
  | some w => ({ m' with waker := none, allocated := m'.allocated.erase w }, some w)

/-- Embedding of Drop for UnorderedMutexGuard / UnorderedMutexOwnedGuard. -/
def UnorderedMutex.guardDrop (m : UnorderedMutex) : UnorderedMutex × Option Nat :=
  m.unlock

/-- Embedding of Future::poll for UnorderedMutexGuardFuture: swap true
into is_acquired; if the old value was false the lock is taken and the
future realized, otherwise the context waker is stored and the poll is
pending (the flag stays true in that branch, exactly as the swap leaves
it). -/
def UnorderedMutexGuardFuture.poll (f : UnorderedMutexGuardFuture)
    (m : UnorderedMutex) (w : Nat) :
    UnorderedMutexGuardFuture × UnorderedMutex × PollResult :=
  if m.is_acquired = false then
    (⟨true⟩, { m with is_acquired := true }, PollResult.ready)
  else
    (f, m.store_waker w, PollResult.pending)

/-- Embedding of Future::poll for UnorderedMutexOwnedGuardFuture. -/
def UnorderedMutexOwnedGuardFuture.poll (f : UnorderedMutexOwnedGuardFuture)
    (m : UnorderedMutex) (w : Nat) :
    UnorderedMutexOwnedGuardFuture × UnorderedMutex × PollResult :=
  if m.is_acquired = false then
    (⟨true⟩, { m with is_acquired := true }, PollResult.ready)
  else
    (f, m.store_waker w, PollResult.pending)

/-- Embedding of Drop for UnorderedMutexGuardFuture: unlock unless
realized. -/
def UnorderedMutexGuardFuture.dropFuture (f : UnorderedMutexGuardFuture)
    (m : UnorderedMutex) : UnorderedMutex × Option Nat :=
  if f.is_realized then (m, none) else m.unlock

/-- Embedding of Drop for UnorderedMutexOwnedGuardFuture. -/
def UnorderedMutexOwnedGuardFuture.dropFuture (f : UnorderedMutexOwnedGuardFuture)
    (m : UnorderedMutex) : UnorderedMutex × Option Nat :=
  if f.is_realized then (m, none) else m.unlock

/-- Events an external scheduler and callers can perform on a ticket
mutex: create a future by lock(), poll a live future, drop a live
future, drop a live guard. Indices refer to creation order. -/
inductive Ev where
  | lockEv
  | pollEv (i : Nat)
  | dropFutEv (i : Nat)
  | dropGuardEv (j : Nat)
deriving DecidableEq, Repr

/-- Whole-system state for the ticket mutex: the mutex, the live futures
(none once dropped), the guards handed out (some t while the guard for
ghost ticket t is alive, none once dropped), the ghost trace of
delivered wake ids, the ghost count of unlock calls, and a fresh-id
source for waker boxes. -/
structure Sys where
  mx : Mutex
  futs : List (Option MutexGuardFuture)
  guards : List (Option Nat)
  delivered : List Nat
  unlocks : Nat
  fresh : Nat
deriving DecidableEq, Repr

/-- Initial system: a freshly constructed mutex, no futures, no guards. -/
def Sys.init : Sys := ⟨Mutex.new, [], [], [], 0, 0⟩

/-- Count of currently alive guards. -/
def Sys.aliveGuards (s : Sys) : Nat := (s.guards.filter Option.isSome).length

/-- One scheduler step on the ticket-mutex system. Ill-formed events
(an index out of range, an already dropped handle, or a poll of an
already completed future, which the Rust Future contract forbids) are
no-ops. -/
def step (s : Sys) (e : Ev) : Sys :=
  match e with
  | Ev.lockEv =>
      let r := s.mx.lock
      { s with mx := r.2, futs := s.futs ++ [some r.1] }
  | Ev.pollEv i =>
      match s.futs[i]? with
      | some (some f) =>
          if f.is_realized then s
          else
            let r := f.poll s.mx s.fresh
            match r.2.2 with
            | PollResult.ready =>
                { s with mx := r.2.1, futs := s.futs.set i (some r.1),
                         guards := s.guards ++ [some f.id], fresh := s.fresh + 1 }
            | PollResult.pending =>
                { s with mx := r.2.1, futs := s.futs.set i (some r.1),
                         fresh := s.fresh + 1 }
      | _ => s
  | Ev.dropFutEv i =>
      match s.futs[i]? with
      | some (some f) =>
          let r := f.dropFuture s.mx
          { s with mx := r.1, futs := s.futs.set i none,
                   delivered := s.delivered ++ r.2.toList,
                   unlocks := s.unlocks + (if f.is_realized then 0 else 1) }
      | _ => s
  | Ev.dropGuardEv j =>
      match s.guards[j]? with
      | some (some _) =>
          let r := s.mx.guardDrop
          { s with mx := r.1, guards := s.guards.set j none,
                   delivered := s.delivered ++ r.2.toList,
                   unlocks := s.unlocks + 1 }
      | _ => s

/-- Run a list of events from the initial ticket-mutex system. -/
def run (es : List Ev) : Sys := es.foldl step Sys.init

/-- Events on an unordered mutex. -/
inductive UEv where
  | lockEv
  | pollEv (i : Nat)
  | dropFutEv (i : Nat)
  | dropGuardEv (j : Nat)
deriving DecidableEq, Repr

/-- Whole-system state for the unordered mutex; a guard slot holds true
while that guard is alive. -/
structure USys where
  mx : UnorderedMutex
  futs : List (Option UnorderedMutexGuardFuture)
  guards : List Bool
  delivered : List Nat
  fresh : Nat
deriving DecidableEq, Repr

/-- Initial unordered system. -/
def USys.init : USys := ⟨UnorderedMutex.new, [], [], [], 0⟩

/-- Count of currently alive unordered guards. -/
def USys.aliveGuards (s : USys) : Nat := (s.guards.filter id).length

/-- One scheduler step on the unordered-mutex system; same conventions
as the ticket variant. -/
def stepU (s : USys) (e : UEv) : USys :=
  match e with
  | UEv.lockEv =>
      { s with futs := s.futs ++ [some s.mx.lock] }
  | UEv.pollEv i =>
      match s.futs[i]? with
      | some (some f) =>
          if f.is_realized then s
          else
            let r := f.poll s.mx s.fresh
            match r.2.2 with
            | PollResult.ready =>
                { s with mx := r.2.1, futs := s.futs.set i (some r.1),
                         guards := s.guards ++ [true], fresh := s.fresh + 1 }
            | PollResult.pending =>
                { s with mx := r.2.1, futs := s.futs.set i (some r.1),
                         fresh := s.fresh + 1 }
      | _ => s
  | UEv.dropFutEv i =>
      match s.futs[i]? with
      | some (some f) =>
          let r := f.dropFuture s.mx
          { s with mx := r.1, futs := s.futs.set i none,
                   delivered := s.delivered ++ r.2.toList }
      | _ => s
  | UEv.dropGuardEv j =>
      match s.guards[j]? with
      | some true =>
          let r := s.mx.guardDrop
          { s with mx := r.1, guards := s.guards.set j false,
                   delivered := s.delivered ++ r.2.toList }
      | _ => s

/-- Run a list of events from the initial unordered-mutex system. -/
def runU (es : List UEv) : USys := es.foldl stepU USys.init

/-- Release of the ticket mutex always drains the waker slot. -/
theorem Mutex.unlock_fst_waker (m : Mutex) : (m.unlock).1.waker = none := by
  unfold Mutex.unlock
  cases h : m.waker <;> simp [h]

/-- Release of the ticket mutex delivers exactly the prior slot contents. -/
theorem Mutex.unlock_snd (m : Mutex) : (m.unlock).2 = m.waker := by
  unfold Mutex.unlock
  cases h : m.waker <;> simp [h]

/-- Release of the ticket mutex advances current by one, wrapping. -/
theorem Mutex.unlock_fst_current (m : Mutex) :
    (m.unlock).1.current = (m.current + 1) % U := by
  unfold Mutex.unlock
  cases h : m.waker <;> simp [h]

/-- Release of the unordered mutex always drains the waker slot. -/
theorem UnorderedMutex.unlock_drains (m : UnorderedMutex) :
    (m.unlock).1.waker = none := by
  unfold UnorderedMutex.unlock
  cases h : m.waker <;> simp [h]

/-- Release of the unordered mutex delivers exactly the prior slot
contents. -/
theorem UnorderedMutex.unlock_delivers (m : UnorderedMutex) : (m.unlock).2 = m.waker := by
  unfold UnorderedMutex.unlock
  cases h : m.waker <;> simp [h]

/-- Release of the unordered mutex clears the is_acquired flag. -/
theorem UnorderedMutex.unlock_fst_acquired (m : UnorderedMutex) :
    (m.unlock).1.is_acquired = false := by
  unfold UnorderedMutex.unlock
  cases h : m.waker <;> simp [h]

/-- Characterisation of the next-in-line test of the ticket poll: the
checked subtraction succeeds with value current exactly when the ticket
is one past current. -/
theorem checkedSub_one_eq (c t : Nat) : some c = checkedSub t 1 ↔ c + 1 = t := by
  unfold checkedSub
  split <;> simp <;> omega

/-- A ticket poll never changes the current counter. -/
theorem MutexGuardFuture.poll_current (f : MutexGuardFuture) (m : Mutex) (w : Nat) :
    (f.poll m w).2.1.current = m.current := by
  by_cases h1 : m.current = f.id
  · simp [MutexGuardFuture.poll, h1]
  · by_cases h2 : some m.current = checkedSub f.id 1 <;>
      simp [MutexGuardFuture.poll, h1, h2, Mutex.store_waker]

/-- After a ticket poll the waker slot holds the old contents or the
freshly stored waker. -/
theorem MutexGuardFuture.poll_waker_or (f : MutexGuardFuture) (m : Mutex) (w : Nat) :
    (f.poll m w).2.1.waker = m.waker ∨ (f.poll m w).2.1.waker = some w := by
  by_cases h1 : m.current = f.id
  · exact Or.inl (by simp [MutexGuardFuture.poll, h1])
  · by_cases h2 : some m.current = checkedSub f.id 1
    · exact Or.inr (by simp [MutexGuardFuture.poll, h1, h2, Mutex.store_waker])
    · exact Or.inl (by simp [MutexGuardFuture.poll, h1, h2])

/-- A ticket poll away from its turn leaves the future untouched and
stays pending. -/
theorem MutexGuardFuture.poll_pending_of_ne (f : MutexGuardFuture) (m : Mutex)
    (w : Nat) (h : m.current ≠ f.id) :
    (f.poll m w).1 = f ∧ (f.poll m w).2.2 = PollResult.pending := by
  by_cases h2 : some m.current = checkedSub f.id 1 <;>
    simp [MutexGuardFuture.poll, h, h2]

/-- After an unordered poll the waker slot holds the old contents or the
freshly stored waker. -/
theorem UnorderedMutexGuardFuture.upoll_waker_or (f : UnorderedMutexGuardFuture)
    (m : UnorderedMutex) (w : Nat) :
    (f.poll m w).2.1.waker = m.waker ∨ (f.poll m w).2.1.waker = some w := by
  by_cases h : m.is_acquired = false
  · exact Or.inl (by simp [UnorderedMutexGuardFuture.poll, h])
  · exact Or.inr (by simp [UnorderedMutexGuardFuture.poll, h, UnorderedMutex.store_waker])

/-- Concrete interleaving on the ticket mutex: three tickets issued, the
first realizes into a guard, the third future is discarded while never
polled, and then the second ticket realizes as well. -/
def badTrace : List Ev :=
  [Ev.lockEv, Ev.lockEv, Ev.lockEv, Ev.pollEv 0, Ev.dropFutEv 2, Ev.pollEv 1]

/-- Concrete interleaving on the unordered mutex: a guard is acquired,
then a second, never-realized acquisition future is discarded. -/
def uBadTrace : List UEv :=
  [UEv.lockEv, UEv.pollEv 0, UEv.lockEv, UEv.dropFutEv 1]

/-- C1: dropping a non-realized unordered acquisition future is not a
no-op on the admission state. At the concrete state where the mutex is
held (is_acquired = true, a registered waker 5), the drop of a
never-realized borrowing or owned future clears the locked flag and
fires the stored waker, instead of leaving the state unchanged. -/
theorem c1_unordered_future_drop_unlocks :
    (UnorderedMutexGuardFuture.dropFuture ⟨false⟩ ⟨true, some 5, [5]⟩).1.is_acquired
        = false ∧
    (UnorderedMutexGuardFuture.dropFuture ⟨false⟩ ⟨true, some 5, [5]⟩).2 = some 5 ∧
    (⟨true, some 5, [5]⟩ : UnorderedMutex).is_acquired = true ∧
    (UnorderedMutexOwnedGuardFuture.dropFuture ⟨false⟩ ⟨true, some 5, [5]⟩).1.is_acquired
        = false := by
  decide

/-- C2: the ticket mutex admits two simultaneously alive guards: after
the trace badTrace (issue tickets 0, 1, 2; realize ticket 0 into a
guard; discard the never-polled future of ticket 2; poll ticket 1) two
guards are alive at once, refuting the at-most-one-guard invariant. -/
theorem c2_two_guards_alive : (run badTrace).aliveGuards = 2 := by decide

/-- C4: reachable state of the unordered mutex in which a guard is alive
while the locked flag is false: acquire a guard, then discard a pending
acquisition future, whose drop clears is_acquired. -/
theorem c4_locked_flag_desyncs :
    (runU uBadTrace).aliveGuards = 1 ∧ (runU uBadTrace).mx.is_acquired = false := by
  decide

/-- C6: registration leaks the previously stored callback. Starting from
a fresh mutex of either variant, registering waker box 1 and then waker
box 2 leaves both boxes allocated while the slot references only box 2;
even the release that drains the slot reclaims only box 2, so box 1 is
never disposed. -/
theorem c6_store_waker_leaks :
    ((Mutex.new.store_waker 1).store_waker 2).allocated = [1, 2] ∧
    ((Mutex.new.store_waker 1).store_waker 2).waker = some 2 ∧
    (((Mutex.new.store_waker 1).store_waker 2).unlock).1.allocated = [1] ∧
    (((Mutex.new.store_waker 1).store_waker 2).unlock).1.waker = none ∧
    ((UnorderedMutex.new.store_waker 1).store_waker 2).allocated = [1, 2] ∧
    ((UnorderedMutex.new.store_waker 1).store_waker 2).waker = some 2 ∧
    (((UnorderedMutex.new.store_waker 1).store_waker 2).unlock).1.allocated = [1] := by
  decide

/-- C8 counterexample: at the wrap boundary the next-in-line test does
not wrap. With serving_ticket = U - 1 and a pending request holding
ticket 0, serving_ticket equals ticket minus one in wrapping arithmetic,
yet the poll returns pending without storing the caller's waker (the
code uses checked, not wrapping, subtraction). -/
theorem c8_wrap_registration_cex :
    MutexGuardFuture.poll ⟨0, false⟩ ⟨0, U - 1, none, []⟩ 7 =
      (⟨0, false⟩, ⟨0, U - 1, none, []⟩, PollResult.pending) ∧
    (0 + (U - 1)) % U = U - 1 := by
  decide

/-- C9 counterexample: after badTrace the future holding ticket 1 has
realized (and its guard is alive) while ticket 0 has not been released:
the guard created for ticket 0 is still alive and the future of ticket 0
was never discarded. Strict FIFO-by-issuance of the claim is refuted by
the discard of the later ticket 2. -/
theorem c9_fifo_cex :
    (run badTrace).futs[1]? = some (some ⟨1, true⟩) ∧
    (run badTrace).guards[0]? = some (some 0) ∧
    (run badTrace).futs[0]? = some (some ⟨0, true⟩) := by
  decide

/-- Appending one fresh element keeps a list duplicate-free. -/
theorem nodupSnoc {l : List Nat} {a : Nat} (h : l.Nodup) (ha : a ∉ l) :
    (l ++ [a]).Nodup := by
  rw [List.nodup_append]
  exact ⟨h, List.nodup_singleton a, by simp [ha]⟩

/-- Delivery invariant of the ticket system: the delivered wake ids are
pairwise distinct, the id in the slot is undelivered and below the fresh
counter, and every delivered id is below the fresh counter. -/
def WakerInv (s : Sys) : Prop :=
  s.delivered.Nodup ∧
  (∀ w : Nat, s.mx.waker = some w → w ∉ s.delivered ∧ w < s.fresh) ∧
  (∀ w ∈ s.delivered, w < s.fresh)

/-- The delivery invariant is stable under any poll of the ticket
mutex paired with an increment of the fresh counter, whatever happens to
the future and guard tables. -/
theorem wakerInvAfterPoll (s : Sys) (h : WakerInv s) (f : MutexGuardFuture)
    (futs' : List (Option MutexGuardFuture)) (guards' : List (Option Nat)) (u' : Nat) :
    WakerInv ⟨(f.poll s.mx s.fresh).2.1, futs', guards', s.delivered, u', s.fresh + 1⟩ := by
  obtain ⟨hnd, hslot, hlt⟩ := h
  refine ⟨hnd, fun w hw2 => ?_, fun w hw => Nat.lt_succ_of_lt (hlt w hw)⟩
  have hw2' : (f.poll s.mx s.fresh).2.1.waker = some w := hw2
  show w ∉ s.delivered ∧ w < s.fresh + 1
  rcases f.poll_waker_or s.mx s.fresh with hcase | hcase
  · rw [hcase] at hw2'
    obtain ⟨a, b⟩ := hslot w hw2'
    exact ⟨a, Nat.lt_succ_of_lt b⟩
  · rw [hcase] at hw2'
    injection hw2' with hv
    subst hv
    refine ⟨fun hmem => ?_, Nat.lt_succ_self _⟩
    exact absurd (hlt _ hmem) (Nat.lt_irrefl _)

/-- The delivery invariant is stable under an unlock of the ticket mutex
that appends the delivered wake, whatever happens to the future and
guard tables. -/
theorem wakerInvAfterUnlock (s : Sys) (h : WakerInv s)
    (futs' : List (Option MutexGuardFuture)) (guards' : List (Option Nat)) (u' : Nat) :
    WakerInv ⟨(s.mx.unlock).1, futs', guards',
      s.delivered ++ (s.mx.unlock).2.toList, u', s.fresh⟩ := by
  obtain ⟨hnd, hslot, hlt⟩ := h
  refine ⟨?_, fun w hw2 => ?_, fun w hw => ?_⟩
  · show (s.delivered ++ (s.mx.unlock).2.toList).Nodup
    rw [Mutex.unlock_snd]
    cases hwk : s.mx.waker with
    | none => simpa using hnd
    | some w0 =>
      obtain ⟨hw0nd, _⟩ := hslot w0 hwk
      simpa using nodupSnoc hnd hw0nd
  · have hw2' : (s.mx.unlock).1.waker = some w := hw2
    rw [Mutex.unlock_fst_waker] at hw2'
    exact absurd hw2' (by simp)
  · have hw' : w ∈ s.delivered ++ (s.mx.unlock).2.toList := hw
    show w < s.fresh
    rw [Mutex.unlock_snd] at hw'
    rcases List.mem_append.mp hw' with hmem | hmem
    · exact hlt w hmem
    · cases hwk : s.mx.waker with
      | none => rw [hwk] at hmem; simp at hmem
      | some w0 =>
        rw [hwk] at hmem
        obtain ⟨_, hw0lt⟩ := hslot w0 hwk
        have hww0 : w = w0 := by simpa using hmem
        rw [hww0]
        exact hw0lt

/-- The delivery invariant is stable under steps that keep the mutex,
the delivered trace and the fresh counter. -/
theorem wakerInvFrame (s : Sys) (h : WakerInv s)
    (futs' : List (Option MutexGuardFuture)) (guards' : List (Option Nat)) (u' : Nat) :
    WakerInv ⟨s.mx, futs', guards', s.delivered ++ [], u', s.fresh⟩ := by
  obtain ⟨hnd, hslot, hlt⟩ := h
  refine ⟨?_, fun w hw2 => ?_, fun w hw => ?_⟩
  · show (s.delivered ++ []).Nodup
    simpa using hnd
  · have hw2' : s.mx.waker = some w := hw2
    show w ∉ s.delivered ++ [] ∧ w < s.fresh
    obtain ⟨a, b⟩ := hslot w hw2'
    exact ⟨by simpa using a, b⟩
  · have hw' : w ∈ s.delivered ++ [] := hw
    show w < s.fresh
    exact hlt w (by simpa using hw')

/-- Every step of the ticket system preserves the delivery invariant. -/
theorem wakerInv_step (s : Sys) (e : Ev) (h : WakerInv s) : WakerInv (step s e) := by
  obtain ⟨hnd, hslot, hlt⟩ := h
  cases e with
  | lockEv =>
      exact ⟨hnd, hslot, hlt⟩
  | pollEv i =>
      simp only [step]
      cases hf : s.futs[i]? with
      | none => exact ⟨hnd, hslot, hlt⟩
      | some of =>
        cases of with
        | none => exact ⟨hnd, hslot, hlt⟩
        | some f =>
          dsimp only
          by_cases hr : f.is_realized = true
          · rw [if_pos hr]
            exact ⟨hnd, hslot, hlt⟩
          · rw [if_neg hr]
            cases hpr : (f.poll s.mx s.fresh).2.2 <;>
              exact wakerInvAfterPoll s ⟨hnd, hslot, hlt⟩ f _ _ _
  | dropFutEv i =>
      simp only [step]
      cases hf : s.futs[i]? with
      | none => exact ⟨hnd, hslot, hlt⟩
      | some of =>
        cases of with
        | none => exact ⟨hnd, hslot, hlt⟩
        | some f =>
          dsimp only
          by_cases hr : f.is_realized = true
          · simp only [MutexGuardFuture.dropFuture, if_pos hr]
            exact wakerInvFrame s ⟨hnd, hslot, hlt⟩ _ _ _
          · simp only [MutexGuardFuture.dropFuture, if_neg hr]
            exact wakerInvAfterUnlock s ⟨hnd, hslot, hlt⟩ _ _ _
  | dropGuardEv j =>
      simp only [step]
      cases hg : s.guards[j]? with
      | none => exact ⟨hnd, hslot, hlt⟩
      | some og =>
        cases og with
        | none => exact ⟨hnd, hslot, hlt⟩
        | some t => exact wakerInvAfterUnlock s ⟨hnd, hslot, hlt⟩ _ _ _

/-- The delivery invariant holds in every reachable ticket-system state. -/
theorem wakerInv_run (es : List Ev) : WakerInv (run es) := by
  have hgen : ∀ (l : List Ev) (s : Sys), WakerInv s → WakerInv (l.foldl step s) := by
    intro l
    induction l with
    | nil => intro s hs; exact hs
    | cons e t ih => intro s hs; exact ih (step s e) (wakerInv_step s e hs)
  refine hgen es Sys.init ⟨List.nodup_nil, fun w hw => ?_, fun w hw => ?_⟩
  · exact absurd hw (by simp [Sys.init, Mutex.new])
  · exact absurd hw (by simp [Sys.init])

/-- Delivery invariant of the unordered system, mirroring WakerInv. -/
def UWakerInv (s : USys) : Prop :=
  s.delivered.Nodup ∧
  (∀ w : Nat, s.mx.waker = some w → w ∉ s.delivered ∧ w < s.fresh) ∧
  (∀ w ∈ s.delivered, w < s.fresh)

/-- Stability of the unordered delivery invariant under a poll paired
with an increment of the fresh counter. -/
theorem uWakerInvAfterPoll (s : USys) (h : UWakerInv s) (f : UnorderedMutexGuardFuture)
    (futs' : List (Option UnorderedMutexGuardFuture)) (guards' : List Bool) :
    UWakerInv ⟨(f.poll s.mx s.fresh).2.1, futs', guards', s.delivered, s.fresh + 1⟩ := by
  obtain ⟨hnd, hslot, hlt⟩ := h
  refine ⟨hnd, fun w hw2 => ?_, fun w hw => Nat.lt_succ_of_lt (hlt w hw)⟩
  have hw2' : (f.poll s.mx s.fresh).2.1.waker = some w := hw2
  show w ∉ s.delivered ∧ w < s.fresh + 1
  rcases f.upoll_waker_or s.mx s.fresh with hcase | hcase
  · rw [hcase] at hw2'
    obtain ⟨a, b⟩ := hslot w hw2'
    exact ⟨a, Nat.lt_succ_of_lt b⟩
  · rw [hcase] at hw2'
    injection hw2' with hv
    subst hv
    refine ⟨fun hmem => ?_, Nat.lt_succ_self _⟩
    exact absurd (hlt _ hmem) (Nat.lt_irrefl _)

/-- Stability of the unordered delivery invariant under an unlock. -/
theorem uWakerInvAfterUnlock (s : USys) (h : UWakerInv s)
    (futs' : List (Option UnorderedMutexGuardFuture)) (guards' : List Bool) :
    UWakerInv ⟨(s.mx.unlock).1, futs', guards',
      s.delivered ++ (s.mx.unlock).2.toList, s.fresh⟩ := by
  obtain ⟨hnd, hslot, hlt⟩ := h
  refine ⟨?_, fun w hw2 => ?_, fun w hw => ?_⟩
  · show (s.delivered ++ (s.mx.unlock).2.toList).Nodup
    rw [UnorderedMutex.unlock_delivers]
    cases hwk : s.mx.waker with
    | none => simpa using hnd
    | some w0 =>
      obtain ⟨hw0nd, _⟩ := hslot w0 hwk
      simpa using nodupSnoc hnd hw0nd
  · have hw2' : (s.mx.unlock).1.waker = some w := hw2
    rw [UnorderedMutex.unlock_drains] at hw2'
    exact absurd hw2' (by simp)
  · have hw' : w ∈ s.delivered ++ (s.mx.unlock).2.toList := hw
    show w < s.fresh
    rw [UnorderedMutex.unlock_delivers] at hw'
    rcases List.mem_append.mp hw' with hmem | hmem
    · exact hlt w hmem
    · cases hwk : s.mx.waker with
      | none => rw [hwk] at hmem; simp at hmem
      | some w0 =>
        rw [hwk] at hmem
        obtain ⟨_, hw0lt⟩ := hslot w0 hwk
        have hww0 : w = w0 := by simpa using hmem
        rw [hww0]
        exact hw0lt

/-- Stability of the unordered delivery invariant under frame steps. -/
theorem uWakerInvFrame (s : USys) (h : UWakerInv s)
    (futs' : List (Option UnorderedMutexGuardFuture)) (guards' : List Bool) :
    UWakerInv ⟨s.mx, futs', guards', s.delivered ++ [], s.fresh⟩ := by
  obtain ⟨hnd, hslot, hlt⟩ := h
  refine ⟨?_, fun w hw2 => ?_, fun w hw => ?_⟩
  · show (s.delivered ++ []).Nodup
    simpa using hnd
  · have hw2' : s.mx.waker = some w := hw2
    show w ∉ s.delivered ++ [] ∧ w < s.fresh
    obtain ⟨a, b⟩ := hslot w hw2'
    exact ⟨by simpa using a, b⟩
  · have hw' : w ∈ s.delivered ++ [] := hw
    show w < s.fresh
    exact hlt w (by simpa using hw')

/-- Every step of the unordered system preserves the delivery invariant. -/
theorem uWakerInv_step (s : USys) (e : UEv) (h : UWakerInv s) : UWakerInv (stepU s e) := by
  obtain ⟨hnd, hslot, hlt⟩ := h
  cases e with
  | lockEv =>
      exact ⟨hnd, hslot, hlt⟩
  | pollEv i =>
      simp only [stepU]
      cases hf : s.futs[i]? with
      | none => exact ⟨hnd, hslot, hlt⟩
      | some of =>
        cases of with
        | none => exact ⟨hnd, hslot, hlt⟩
        | some f =>
          dsimp only
          by_cases hr : f.is_realized = true
          · rw [if_pos hr]
            exact ⟨hnd, hslot, hlt⟩
          · rw [if_neg hr]
            cases hpr : (f.poll s.mx s.fresh).2.2 <;>
              exact uWakerInvAfterPoll s ⟨hnd, hslot, hlt⟩ f _ _
  | dropFutEv i =>
      simp only [stepU]
      cases hf : s.futs[i]? with
      | none => exact ⟨hnd, hslot, hlt⟩
      | some of =>
        cases of with
        | none => exact ⟨hnd, hslot, hlt⟩
        | some f =>
          dsimp only
          by_cases hr : f.is_realized = true
          · simp only [UnorderedMutexGuardFuture.dropFuture, if_pos hr]
            exact uWakerInvFrame s ⟨hnd, hslot, hlt⟩ _ _
          · simp only [UnorderedMutexGuardFuture.dropFuture, if_neg hr]
            exact uWakerInvAfterUnlock s ⟨hnd, hslot, hlt⟩ _ _
  | dropGuardEv j =>
      simp only [stepU]
      cases hg : s.guards[j]? with
      | none => exact ⟨hnd, hslot, hlt⟩
      | some b =>
        cases b with
        | false => exact ⟨hnd, hslot, hlt⟩
        | true => exact uWakerInvAfterUnlock s ⟨hnd, hslot, hlt⟩ _ _

/-- The delivery invariant holds in every reachable unordered-system
state. -/
theorem uWakerInv_run (es : List UEv) : UWakerInv (runU es) := by
  have hgen : ∀ (l : List UEv) (s : USys), UWakerInv s → UWakerInv (l.foldl stepU s) := by
    intro l
    induction l with
    | nil => intro s hs; exact hs
    | cons e t ih => intro s hs; exact ih (stepU s e) (uWakerInv_step s e hs)
  refine hgen es USys.init ⟨List.nodup_nil, fun w hw => ?_, fun w hw => ?_⟩
  · exact absurd hw (by simp [USys.init, UnorderedMutex.new])
  · exact absurd hw (by simp [USys.init])

/-- Counting invariant of the ticket system: current always equals the
number of unlock calls performed so far, reduced modulo the counter
width. -/
def CountInv (s : Sys) : Prop := s.mx.current = s.unlocks % U

/-- Every step of the ticket system preserves the counting invariant. -/
theorem countInv_step (s : Sys) (e : Ev) (h : CountInv s) : CountInv (step s e) := by
  cases e with
  | lockEv => exact h
  | pollEv i =>
      simp only [step]
      cases hf : s.futs[i]? with
      | none => exact h
      | some of =>
        cases of with
        | none => exact h
        | some f =>
          dsimp only
          by_cases hr : f.is_realized = true
          · rw [if_pos hr]
            exact h
          · rw [if_neg hr]
            cases hpr : (f.poll s.mx s.fresh).2.2 <;>
            · show (f.poll s.mx s.fresh).2.1.current = s.unlocks % U
              rw [f.poll_current s.mx s.fresh]
              exact h
  | dropFutEv i =>
      simp only [step]
      cases hf : s.futs[i]? with
      | none => exact h
      | some of =>
        cases of with
        | none => exact h
        | some f =>
          dsimp only
          by_cases hr : f.is_realized = true
          · simp only [MutexGuardFuture.dropFuture, if_pos hr]
            exact h
          · simp only [MutexGuardFuture.dropFuture, if_neg hr]
            show (s.mx.unlock).1.current = (s.unlocks + 1) % U
            rw [Mutex.unlock_fst_current, h]
            exact Nat.mod_add_mod s.unlocks U 1
  | dropGuardEv j =>
      simp only [step]
      cases hg : s.guards[j]? with
      | none => exact h
      | some og =>
        cases og with
        | none => exact h
        | some t =>
          show (s.mx.unlock).1.current = (s.unlocks + 1) % U
          rw [Mutex.unlock_fst_current, h]
          exact Nat.mod_add_mod s.unlocks U 1

/-- The counting invariant holds in every reachable ticket-system state. -/
theorem countInv_run (es : List Ev) : CountInv (run es) := by
  have hgen : ∀ (l : List Ev) (s : Sys), CountInv s → CountInv (l.foldl step s) := by
    intro l
    induction l with
    | nil => intro s hs; exact hs
    | cons e t ih => intro s hs; exact ih (step s e) (countInv_step s e hs)
  exact hgen es Sys.init (by simp [CountInv, Sys.init, Mutex.new])

/-- Observation of whether the future at index i is realized. -/
def realizedAt (s : Sys) (i : Nat) : Bool :=
  match s.futs[i]? with
  | some (some f) => f.is_realized
  | _ => false

/-- A ticket poll at its own turn realizes the future. -/
theorem MutexGuardFuture.poll_eq_ready (f : MutexGuardFuture) (m : Mutex) (w : Nat)
    (h : m.current = f.id) :
    f.poll m w = (⟨f.id, true⟩, m, PollResult.ready) := by
  simp [MutexGuardFuture.poll, h]

/-- A ticket poll exactly one behind its turn registers the waker. -/
theorem MutexGuardFuture.poll_eq_next (f : MutexGuardFuture) (m : Mutex) (w : Nat)
    (h1 : m.current ≠ f.id) (h2 : m.current + 1 = f.id) :
    f.poll m w = (f, m.store_waker w, PollResult.pending) := by
  have hcs : some m.current = checkedSub f.id 1 := (checkedSub_one_eq _ _).mpr h2
  simp [MutexGuardFuture.poll, h1, ← hcs]

/-- A ticket poll outside its turn with a non-adjacent ticket is a pure
read: the future and the mutex stay unchanged. -/
theorem MutexGuardFuture.poll_eq_far (f : MutexGuardFuture) (m : Mutex) (w : Nat)
    (h1 : m.current ≠ f.id) (h2 : m.current + 1 ≠ f.id) :
    f.poll m w = (f, m, PollResult.pending) := by
  have hcs : ¬(some m.current = checkedSub f.id 1) := fun hc =>
    h2 ((checkedSub_one_eq _ _).mp hc)
  simp [MutexGuardFuture.poll, h1, hcs]

/-- Owned-future analogue of poll_eq_ready. -/
theorem MutexOwnedGuardFuture.opoll_eq_ready (f : MutexOwnedGuardFuture) (m : Mutex)
    (w : Nat) (h : m.current = f.id) :
    f.poll m w = (⟨f.id, true⟩, m, PollResult.ready) := by
  simp [MutexOwnedGuardFuture.poll, h]

/-- Owned-future analogue of poll_eq_next. -/
theorem MutexOwnedGuardFuture.opoll_eq_next (f : MutexOwnedGuardFuture) (m : Mutex)
    (w : Nat) (h1 : m.current ≠ f.id) (h2 : m.current + 1 = f.id) :
    f.poll m w = (f, m.store_waker w, PollResult.pending) := by
  have hcs : some m.current = checkedSub f.id 1 := (checkedSub_one_eq _ _).mpr h2
  simp [MutexOwnedGuardFuture.poll, h1, ← hcs]

/-- Owned-future analogue of poll_eq_far. -/
theorem MutexOwnedGuardFuture.opoll_eq_far (f : MutexOwnedGuardFuture) (m : Mutex)
    (w : Nat) (h1 : m.current ≠ f.id) (h2 : m.current + 1 ≠ f.id) :
    f.poll m w = (f, m, PollResult.pending) := by
  have hcs : ¬(some m.current = checkedSub f.id 1) := fun hc =>
    h2 ((checkedSub_one_eq _ _).mp hc)
  simp [MutexOwnedGuardFuture.poll, h1, hcs]

/-- C3: discarding a non-realized ticket acquisition future (borrowing
or owned) performs exactly a guard release: serving advances by one
(wrapping) and the stored wake callback is taken and delivered; a
realized future's discard performs no release. -/
theorem c3_ticket_future_drop_release :
    ∀ (f : MutexGuardFuture) (g : MutexOwnedGuardFuture) (m : Mutex),
      (f.is_realized = false → f.dropFuture m = m.guardDrop) ∧
      (g.is_realized = false → g.dropFuture m = m.guardDrop) ∧
      (f.is_realized = true → f.dropFuture m = (m, none)) ∧
      (g.is_realized = true → g.dropFuture m = (m, none)) ∧
      (m.guardDrop).1.current = (m.current + 1) % U ∧
      (m.guardDrop).1.waker = none ∧
      (m.guardDrop).2 = m.waker := by
  intro f g m
  refine ⟨fun h => ?_, fun h => ?_, fun h => ?_, fun h => ?_,
    m.unlock_fst_current, m.unlock_fst_waker, m.unlock_snd⟩
  · simp [MutexGuardFuture.dropFuture, h, Mutex.guardDrop]
  · simp [MutexOwnedGuardFuture.dropFuture, h, Mutex.guardDrop]
  · simp [MutexGuardFuture.dropFuture, h]
  · simp [MutexOwnedGuardFuture.dropFuture, h]

/-- Witness for C3 at a concrete mutex state with a stored waker. -/
theorem c3_ticket_future_drop_release_witness :
    MutexGuardFuture.dropFuture ⟨3, false⟩ ⟨7, 2, some 9, [9]⟩ =
      Mutex.guardDrop ⟨7, 2, some 9, [9]⟩ ∧
    MutexOwnedGuardFuture.dropFuture ⟨3, false⟩ ⟨7, 2, some 9, [9]⟩ =
      Mutex.guardDrop ⟨7, 2, some 9, [9]⟩ ∧
    MutexGuardFuture.dropFuture ⟨3, true⟩ ⟨7, 2, some 9, [9]⟩ =
      (⟨7, 2, some 9, [9]⟩, none) ∧
    MutexOwnedGuardFuture.dropFuture ⟨3, true⟩ ⟨7, 2, some 9, [9]⟩ =
      (⟨7, 2, some 9, [9]⟩, none) := by
  have h1 := c3_ticket_future_drop_release ⟨3, false⟩ ⟨3, false⟩ ⟨7, 2, some 9, [9]⟩
  have h2 := c3_ticket_future_drop_release ⟨3, true⟩ ⟨3, true⟩ ⟨7, 2, some 9, [9]⟩
  exact ⟨h1.1 rfl, h1.2.1 rfl, h2.2.2.1 rfl, h2.2.2.2.1 rfl⟩

/-- C5: the full poll contract of the ticket acquisition futures. If
serving equals the own ticket the future realizes and yields a guard; if
the ticket is exactly one past serving the waker is stored in the slot
and the poll is pending; in every other case the poll is pending and the
mutex, hence the wake slot, is untouched. -/
theorem c5_ticket_poll_contract :
    ∀ (f : MutexGuardFuture) (g : MutexOwnedGuardFuture) (m : Mutex) (w : Nat),
      (m.current = f.id → f.poll m w = (⟨f.id, true⟩, m, PollResult.ready)) ∧
      (m.current ≠ f.id → m.current + 1 = f.id →
        f.poll m w = (f, m.store_waker w, PollResult.pending) ∧
          (m.store_waker w).waker = some w) ∧
      (m.current ≠ f.id → m.current + 1 ≠ f.id →
        f.poll m w = (f, m, PollResult.pending)) ∧
      (m.current = g.id → g.poll m w = (⟨g.id, true⟩, m, PollResult.ready)) ∧
      (m.current ≠ g.id → m.current + 1 = g.id →
        g.poll m w = (g, m.store_waker w, PollResult.pending)) ∧
      (m.current ≠ g.id → m.current + 1 ≠ g.id →
        g.poll m w = (g, m, PollResult.pending)) := by
  intro f g m w
  exact ⟨f.poll_eq_ready m w,
    fun h1 h2 => ⟨f.poll_eq_next m w h1 h2, rfl⟩,
    f.poll_eq_far m w,
    g.opoll_eq_ready m w,
    g.opoll_eq_next m w,
    g.opoll_eq_far m w⟩

/-- Witness for C5 at concrete states: serving 4 realizes ticket 4, is
next in line for ticket 5, and is a pure pending read for ticket 9 and
for the owned variants alike. -/
theorem c5_ticket_poll_contract_witness :
    MutexGuardFuture.poll ⟨4, false⟩ ⟨6, 4, none, []⟩ 11 =
      (⟨4, true⟩, ⟨6, 4, none, []⟩, PollResult.ready) ∧
    MutexGuardFuture.poll ⟨5, false⟩ ⟨6, 4, none, []⟩ 11 =
      (⟨5, false⟩, Mutex.store_waker ⟨6, 4, none, []⟩ 11, PollResult.pending) ∧
    MutexGuardFuture.poll ⟨9, false⟩ ⟨6, 4, none, []⟩ 11 =
      (⟨9, false⟩, ⟨6, 4, none, []⟩, PollResult.pending) ∧
    MutexOwnedGuardFuture.poll ⟨5, false⟩ ⟨6, 4, none, []⟩ 11 =
      (⟨5, false⟩, Mutex.store_waker ⟨6, 4, none, []⟩ 11, PollResult.pending) := by
  have h4 := c5_ticket_poll_contract ⟨4, false⟩ ⟨4, false⟩ ⟨6, 4, none, []⟩ 11
  have h5 := c5_ticket_poll_contract ⟨5, false⟩ ⟨5, false⟩ ⟨6, 4, none, []⟩ 11
  have h9 := c5_ticket_poll_contract ⟨9, false⟩ ⟨9, false⟩ ⟨6, 4, none, []⟩ 11
  exact ⟨h4.1 rfl, (h5.2.1 (by decide) rfl).1, h9.2.2.1 (by decide) (by decide),
    h5.2.2.2.2.1 (by decide) rfl⟩

/-- C7: for both variants, a release swaps the wake slot to empty and
returns exactly the prior contents, so an immediately following release
delivers nothing; and along every reachable trace of either system the
delivered wake callbacks are pairwise distinct, so no registration is
ever delivered twice. -/
theorem c7_release_takes_slot_once :
    ∀ (m : Mutex) (u : UnorderedMutex) (es : List Ev) (us : List UEv),
      (m.unlock).1.waker = none ∧ (m.unlock).2 = m.waker ∧
      ((m.unlock).1.unlock).2 = none ∧
      (u.unlock).1.waker = none ∧ (u.unlock).2 = u.waker ∧
      ((u.unlock).1.unlock).2 = none ∧
      (run es).delivered.Nodup ∧ (runU us).delivered.Nodup := by
  intro m u es us
  refine ⟨m.unlock_fst_waker, m.unlock_snd, ?_, u.unlock_drains, u.unlock_delivers, ?_,
    (wakerInv_run es).1, (uWakerInv_run us).1⟩
  · rw [Mutex.unlock_snd, Mutex.unlock_fst_waker]
  · rw [UnorderedMutex.unlock_delivers, UnorderedMutex.unlock_drains]

/-- C10: dropping an acquisition future after it realized (its poll
returned Ready, which is exactly when is_realized was set) leaves the
mutex of either variant completely unchanged and wakes nobody; the
release is performed only by the guard's own drop, which is unlock. -/
theorem c10_realized_future_drop_frame :
    ∀ (f : MutexGuardFuture) (g : MutexOwnedGuardFuture)
      (uf : UnorderedMutexGuardFuture) (ug : UnorderedMutexOwnedGuardFuture)
      (m : Mutex) (u : UnorderedMutex) (w : Nat),
      (f.is_realized = true → f.dropFuture m = (m, none)) ∧
      (g.is_realized = true → g.dropFuture m = (m, none)) ∧
      (uf.is_realized = true → uf.dropFuture u = (u, none)) ∧
      (ug.is_realized = true → ug.dropFuture u = (u, none)) ∧
      (m.current = f.id → (f.poll m w).1.is_realized = true) ∧
      m.guardDrop = m.unlock ∧ u.guardDrop = u.unlock := by
  intro f g uf ug m u w
  refine ⟨fun h => ?_, fun h => ?_, fun h => ?_, fun h => ?_, fun h => ?_, rfl, rfl⟩
  · simp [MutexGuardFuture.dropFuture, h]
  · simp [MutexOwnedGuardFuture.dropFuture, h]
  · simp [UnorderedMutexGuardFuture.dropFuture, h]
  · simp [UnorderedMutexOwnedGuardFuture.dropFuture, h]
  · rw [f.poll_eq_ready m w h]

/-- Witness for C10 at concrete realized futures over held mutexes. -/
theorem c10_realized_future_drop_frame_witness :
    MutexGuardFuture.dropFuture ⟨2, true⟩ ⟨5, 2, some 4, [4]⟩ =
      (⟨5, 2, some 4, [4]⟩, none) ∧
    MutexOwnedGuardFuture.dropFuture ⟨2, true⟩ ⟨5, 2, some 4, [4]⟩ =
      (⟨5, 2, some 4, [4]⟩, none) ∧
    UnorderedMutexGuardFuture.dropFuture ⟨true⟩ ⟨true, some 4, [4]⟩ =
      (⟨true, some 4, [4]⟩, none) ∧
    UnorderedMutexOwnedGuardFuture.dropFuture ⟨true⟩ ⟨true, some 4, [4]⟩ =
      (⟨true, some 4, [4]⟩, none) ∧
    (MutexGuardFuture.poll ⟨2, false⟩ ⟨5, 2, some 4, [4]⟩ 0).1.is_realized = true := by
  have h := c10_realized_future_drop_frame ⟨2, true⟩ ⟨2, true⟩ ⟨true⟩ ⟨true⟩
    ⟨5, 2, some 4, [4]⟩ ⟨true, some 4, [4]⟩ 0
  have h' := c10_realized_future_drop_frame ⟨2, false⟩ ⟨2, true⟩ ⟨true⟩ ⟨true⟩
    ⟨5, 2, some 4, [4]⟩ ⟨true, some 4, [4]⟩ 0
  exact ⟨h.1 rfl, h.2.1 rfl, h.2.2.1 rfl, h.2.2.2.1 rfl, h'.2.2.2.2.1 rfl⟩

/-- C8 (amended): both counters wrap identically to zero at the width
boundary, and a pending request with ticket t registers its waker
exactly when t is at least one and serving equals t minus one under
checked (non-wrapping) subtraction; in particular a request with
ticket 0 that is not being served never registers its waker, even when
serving equals the maximum counter value. -/
theorem c8_amended_registration :
    ∀ (f : MutexGuardFuture) (m : Mutex) (w : Nat),
      (m.state = U - 1 → (m.lock).2.state = 0 ∧ (m.lock).1.id = U - 1) ∧
      (m.current = U - 1 → (m.unlock).1.current = 0) ∧
      (m.current ≠ f.id → m.current + 1 = f.id →
        f.poll m w = (f, m.store_waker w, PollResult.pending)) ∧
      (m.current ≠ f.id → m.current + 1 ≠ f.id →
        f.poll m w = (f, m, PollResult.pending)) ∧
      (f.id = 0 → m.current ≠ 0 → f.poll m w = (f, m, PollResult.pending)) := by
  intro f m w
  have hU : 0 < U := by norm_num [U]
  refine ⟨fun h => ⟨?_, ?_⟩, fun h => ?_, f.poll_eq_next m w, f.poll_eq_far m w,
    fun h0 hc => ?_⟩
  · show (m.state + 1) % U = 0
    rw [h, Nat.sub_add_cancel hU, Nat.mod_self]
  · show m.state = U - 1
    exact h
  · rw [Mutex.unlock_fst_current, h, Nat.sub_add_cancel hU, Nat.mod_self]
  · refine f.poll_eq_far m w ?_ ?_
    · rw [h0]; exact hc
    · rw [h0]; exact Nat.succ_ne_zero m.current

/-- Witness for the amended C8: wrap of both counters at the boundary,
waker registration exactly one behind serving, and the never-registering
ticket 0. -/
theorem c8_amended_registration_witness :
    (Mutex.lock ⟨U - 1, U - 1, none, []⟩).2.state = 0 ∧
    (Mutex.unlock ⟨U - 1, U - 1, none, []⟩).1.current = 0 ∧
    MutexGuardFuture.poll ⟨5, false⟩ ⟨0, 4, none, []⟩ 7 =
      (⟨5, false⟩, Mutex.store_waker ⟨0, 4, none, []⟩ 7, PollResult.pending) ∧
    MutexGuardFuture.poll ⟨9, false⟩ ⟨0, 4, none, []⟩ 7 =
      (⟨9, false⟩, ⟨0, 4, none, []⟩, PollResult.pending) ∧
    MutexGuardFuture.poll ⟨0, false⟩ ⟨0, 5, none, []⟩ 7 =
      (⟨0, false⟩, ⟨0, 5, none, []⟩, PollResult.pending) := by
  have hw := c8_amended_registration ⟨5, false⟩ ⟨U - 1, U - 1, none, []⟩ 7
  have hn := c8_amended_registration ⟨5, false⟩ ⟨0, 4, none, []⟩ 7
  have hf := c8_amended_registration ⟨9, false⟩ ⟨0, 4, none, []⟩ 7
  have h0 := c8_amended_registration ⟨0, false⟩ ⟨0, 5, none, []⟩ 7
  exact ⟨(hw.1 rfl).1, hw.2.1 rfl, hn.2.2.1 (by decide) rfl,
    hf.2.2.2.1 (by decide) (by decide), h0.2.2.2.2 rfl (by decide)⟩

/-- C9 (amended): in every reachable ticket-system state, a poll can
realize the future with ticket t only when the number of releases
performed so far (guard drops plus discards of non-realized futures, of
whatever tickets) is congruent to t modulo the counter width; the poll
order of the pending requests is irrelevant. -/
theorem c9_amended_release_count :
    ∀ (es : List Ev) (i : Nat) (f : MutexGuardFuture),
      (run es).futs[i]? = some (some f) →
      f.is_realized = false →
      realizedAt (step (run es) (Ev.pollEv i)) i = true →
      f.id = (run es).unlocks % U := by
  intro es i f h1 h2 h3
  by_cases hc : (run es).mx.current = f.id
  · rw [← hc]
    exact countInv_run es
  · exfalso
    obtain ⟨hp1, hp2⟩ := f.poll_pending_of_ne (run es).mx (run es).fresh hc
    have hlen : i < (run es).futs.length := by
      rcases List.getElem?_eq_some_iff.mp h1 with ⟨hl, _⟩
      exact hl
    have hstep : step (run es) (Ev.pollEv i) =
        { run es with mx := (f.poll (run es).mx (run es).fresh).2.1,
                      futs := (run es).futs.set i (some f),
                      fresh := (run es).fresh + 1 } := by
      simp only [step, h1]
      rw [if_neg (show ¬(f.is_realized = true) by simp [h2])]
      rw [hp2, hp1]
    rw [hstep] at h3
    have hfuts : ({ run es with
        mx := (f.poll (run es).mx (run es).fresh).2.1,
        futs := (run es).futs.set i (some f),
        fresh := (run es).fresh + 1 } : Sys).futs = (run es).futs.set i (some f) := rfl
    simp only [realizedAt, hfuts, List.getElem?_set_self hlen] at h3
    rw [h2] at h3
    exact Bool.false_ne_true h3

/-- Witness for the amended C9: the first ticket realizes with zero
releases performed. -/
theorem c9_amended_release_count_witness :
    (run [Ev.lockEv]).futs[0]? = some (some ⟨0, false⟩) ∧
    realizedAt (step (run [Ev.lockEv]) (Ev.pollEv 0)) 0 = true ∧
    (0 : Nat) = (run [Ev.lockEv]).unlocks % U := by
  refine ⟨by decide, by decide, ?_⟩
  exact c9_amended_release_count [Ev.lockEv] 0 ⟨0, false⟩ (by decide) rfl (by decide)
